import Mathlib

/-!
The package craw: search-result extraction, link classification and link resolution.

A shallow embedding of `craw.go`.  The third-party packages the file calls
(`net/url`, `crypto/rand`, `gorequest`, `goquery`, `gjson`, `compress/gzip`)
are not part of the repository; each one enters the embedding as an explicit
parameter that carries only the operations `craw.go` invokes.
-/

namespace Craw

/-! ## Data model -/

/-- Site is the result record of `craw.go` (type `Site`). -/
structure Site where
  SortID : Int
  Title : String
  Description : String
  Uptime : String
  Reallink : String
  Isindex : String
  Showlink : String
  Src : String
  deriving DecidableEq, Repr

/-- The two fields of a parsed `*url.URL` that `IsIndex` reads. -/
structure URL where
  Path : String
  RawQuery : String
  deriving DecidableEq, Repr

/-- A Go `error` value, as far as `craw.go` distinguishes them: the dynamic
type is either `*url.Error` (with its `Op` and `URL` fields) or anything else. -/
inductive GoErr where
  | urlError (op : String) (url : String)
  | other (msg : String)
  deriving DecidableEq, Repr

/-- How a call ends: it returns a value, it panics at run time, or the process
is stopped by `log.Fatal`. -/
inductive Outcome (α : Type) where
  | ret (a : α)
  | panic (msg : String)
  | fatal
  deriving DecidableEq, Repr

/-- An externally visible step of a call: a line handed to `log.Println`, or an
HTTP GET handed to the client (`proxy` is the proxy chosen, if any;
`noRedirect` tells whether the `NoRedict` policy was installed). -/
inductive Event where
  | log (msg : String)
  | get (link : String) (proxy : Option String) (noRedirect : Bool)
  deriving DecidableEq, Repr

/-- A finished call: the steps it performed, in order, and how it ended. -/
structure Run (α : Type) where
  trace : List Event
  out : Outcome α

/-- A call that returns at once, having done nothing visible. -/
def Run.pure {α : Type} (a : α) : Run α := ⟨[], Outcome.ret a⟩

/-- Sequencing: the second part runs only when the first part returned. -/
def Run.bind {α β : Type} (m : Run α) (f : α → Run β) : Run β :=
  match m.out with
  | Outcome.ret a => ⟨m.trace ++ (f a).trace, (f a).out⟩
  | Outcome.panic msg => ⟨m.trace, Outcome.panic msg⟩
  | Outcome.fatal => ⟨m.trace, Outcome.fatal⟩

/-- A single visible step. -/
def Run.emit (e : Event) : Run Unit := ⟨[e], Outcome.ret ()⟩

/-- A run-time panic. -/
def Run.panic {α : Type} (msg : String) : Run α := ⟨[], Outcome.panic msg⟩

/-- The process exit of `log.Fatal`. -/
def Run.fatal {α : Type} : Run α := ⟨[], Outcome.fatal⟩

/-! ## Link classifier -/

/-- IsIndex (`craw.go`, lines 153-165).  `parse` stands for `url.Parse`:
`none` is a parse error, `some u` carries the `Path` and `RawQuery` of the
parsed URL.  Go's `&&` binds tighter than `||`, so the test reads
`(RawQuery == "" && Path == "") || Path == "/"`. -/
def IsIndex (parse : String → Option URL) (link : String) : String :=
  if link = "" then "空链接"
  else
    match parse link with
    | none => "无效链接"
    | some linkinfo =>
      if (linkinfo.RawQuery = "" ∧ linkinfo.Path = "") ∨ linkinfo.Path = "/" then "首页"
      else "内页"

/-- The results of Go's `url.Parse` on a handful of links, as a table: the
links of the classifier examples and of the fixtures below.  Every other
string is reported as a parse error, so the table is to be used on the listed
links only. -/
def urlParseTable (link : String) : Option URL :=
  if link = "https://a.com" then some ⟨"", ""⟩
  else if link = "https://a.com/" then some ⟨"/", ""⟩
  else if link = "https://a.com/page?x=1" then some ⟨"/page", "x=1"⟩
  else if link = "https://a.com?x=1" then some ⟨"", "x=1"⟩
  else if link = "https://a.com/?x=1" then some ⟨"/", "x=1"⟩
  else if link = "https://a.com/x" then some ⟨"/x", ""⟩
  else none

/-! ## Random proxy pick -/

/-- The random source behind `rand.Int(rand.Reader, max)` for `max > 0`:
`draw max` is `none` when reading the source failed and `some r` when it
produced `r`; by the contract of `crypto/rand` such an `r` lies below `max`. -/
structure RandSource where
  draw : Nat → Option Nat
  draw_lt : ∀ m r, draw m = some r → r < m

/-- GetRand (`craw.go`, lines 218-225).  `rand.Int` panics when its bound is
not positive; an error of the source ends the process through `log.Fatal`. -/
def GetRand (rs : RandSource) (max : Int) : Run Int :=
  if max ≤ 0 then Run.panic "crypto/rand: argument to Int is <= 0"
  else
    match rs.draw max.toNat with
    | none => Run.fatal
    | some result => Run.pure (Int.ofNat result)

/-- Indexing a Go slice: out of range is a run-time panic. -/
def sliceIndex (s : List String) (i : Int) : Run String :=
  if i < 0 then Run.panic "index out of range"
  else
    match s.get? i.toNat with
    | some x => Run.pure x
    | none => Run.panic "index out of range"

/-- RandMemberFromSlice (`craw.go`, lines 228-230): `s[c.GetRand(len(s)-1)]`. -/
def RandMemberFromSlice (rs : RandSource) (s : List String) : Run String :=
  (GetRand rs ((s.length : Int) - 1)).bind fun i => sliceIndex s i

/-! ## HTTP client -/

/-- A byte string (a Go `string` used as raw bytes). -/
abbrev Bytes := List Nat

/-- What the client is asked to do: GET `link`, through `proxy` when one was
chosen, with redirects refused when `noRedirect` is set. -/
structure Request where
  link : String
  proxy : Option String
  noRedirect : Bool
  deriving DecidableEq, Repr

/-- What `End()` hands back: either a response with `errs == nil`, or a
non-nil `errs` slice (and no response). -/
inductive EndResult where
  | response (status : Int) (body : Bytes)
  | errors (errs : List GoErr)
  deriving DecidableEq, Repr

/-- The network as seen by one call: the result of each request. -/
abbrev Http := Request → EndResult

/-- NoRedict (`craw.go`, lines 145-150): `none` lets the request through,
`some e` refuses it; `via` is the number of earlier requests in the chain. -/
def NoRedict (via : Nat) : Option GoErr :=
  if via > 0 then some (GoErr.other "本次请求不允许重定向") else none

/-- BaiduReallink (`craw.go`, lines 114-135).  The type assertion
`errs[0].(*url.Error)` yields `ok = true` exactly for a `*url.Error`; when it
yields `ok = false` the variable `reallink` is the nil pointer, and reading
`reallink.URL` panics. -/
def BaiduReallink (rs : RandSource) (http : Http) (link : String)
    (iplist : List String) : Run String :=
  if link = "" then Run.pure ""
  else
    (if iplist.length ≠ 0 then
        (RandMemberFromSlice rs iplist).bind fun ip => Run.pure (some ip)
      else Run.pure none).bind fun proxy =>
    (Run.emit (Event.get link proxy true)).bind fun _ =>
    match http ⟨link, proxy, true⟩ with
    | EndResult.response _ _ =>
      (Run.emit (Event.log "获取百度真实链接时未获取到有效的错误信息")).bind fun _ =>
        Run.pure ""
    | EndResult.errors [] => Run.panic "index out of range"
    | EndResult.errors (GoErr.urlError _ _ :: _) =>
      (Run.emit (Event.log "获取百度真实链接时出现不可意料的错误")).bind fun _ =>
        Run.pure ""
    | EndResult.errors (GoErr.other _ :: _) =>
      Run.panic "invalid memory address or nil pointer dereference"

/-! ## Fetching and decoding a page -/

/-- A Go `io.Reader` over a finite stream: the bytes not yet read, and the
error reported once they are used up (`none` is the plain `io.EOF`). -/
structure Reader where
  unread : Bytes
  fail : Option GoErr

/-- The two decoding libraries used by `GetQey`.  `htmlParse` is `html.Parse`
applied to a whole byte stream.  `gzipNewReader` is `gzip.NewReader` applied to
the bytes its source still has to offer: an error when no gzip header can be
read, else the decompressed stream (its bytes and its final read error).  A
source with nothing left makes the header read fail with `io.EOF`. -/
structure DocLib (Doc : Type) where
  htmlParse : Bytes → Except GoErr Doc
  gzipNewReader : Bytes → Except GoErr Reader
  gzip_eof : gzipNewReader [] = Except.error (GoErr.other "EOF")

/-- The function `strings.NewReader`. -/
def NewReader (body : Bytes) : Reader := ⟨body, none⟩

/-- The function `goquery.NewDocumentFromReader`: `html.Parse` reads its source
to the end, so the reader is left with nothing unread; a read error other than
`io.EOF` is returned as the parse error. -/
def NewDocumentFromReader {Doc : Type} (lib : DocLib Doc) (r : Reader) :
    Except GoErr Doc × Reader :=
  (match r.fail with
    | none => lib.htmlParse r.unread
    | some e => Except.error e,
   ⟨[], r.fail⟩)

/-- GetQey (`craw.go`, lines 233-260). -/
def GetQey {Doc : Type} (rs : RandSource) (http : Http) (lib : DocLib Doc)
    (link : String) (iplist : List String) : Run (Except GoErr Doc) :=
  (if iplist.length ≠ 0 then
      (RandMemberFromSlice rs iplist).bind fun ip => Run.pure (some ip)
    else Run.pure none).bind fun proxy =>
  (Run.emit (Event.get link proxy false)).bind fun _ =>
  match http ⟨link, proxy, false⟩ with
  | EndResult.errors [] => Run.panic "index out of range"
  | EndResult.errors (e :: _) => Run.pure (Except.error e)
  | EndResult.response status body =>
    if status ≠ 200 then
      Run.pure (Except.error (GoErr.other ("返回状态码为" ++ toString status)))
    else
      let bodyreader := NewReader body
      let first := NewDocumentFromReader lib bodyreader
      let bodyreader := first.2
      match lib.gzipNewReader bodyreader.unread with
      | Except.ok bodygzip => Run.pure (NewDocumentFromReader lib bodygzip).1
      | Except.error _ => Run.pure first.1

/-! ## Ranked-list extractors -/

/-- The part of `goquery` the extractors use.  A `Selection` is a matched set
of nodes; `nodes s` lists, in document order, the one-node selections that
`s.Each` visits. -/
structure GoQuery where
  Selection : Type
  Find : Selection → String → Selection
  nodes : Selection → List Selection
  Text : Selection → String
  AttrOr : Selection → String → String → String
  First : Selection → Selection
  Last : Selection → Selection
  Eq : Selection → Int → Selection

/-- The part of `gjson` the extractors use: `Valid json` is `gjson.Valid(json)`
and `GetString json path` is `gjson.Get(json, path).String()`. -/
structure GJson where
  Valid : String → Bool
  GetString : String → String → String

/-- The loop of `Selection.Each`, started at index `i`: the callback sees the
running index and the node, and updates the variables it captured. -/
def eachFrom {S σ : Type} (f : Int → S → σ → σ) : Int → List S → σ → σ
  | _, [], st => st
  | i, g :: gs, st => eachFrom f (i + 1) gs (f i g st)

/-- The method `Selection.Each`: indices start at 0. -/
def GoQuery.Each {σ : Type} (q : GoQuery) (s : q.Selection)
    (f : Int → q.Selection → σ → σ) (init : σ) : σ :=
  eachFrom f 0 (q.nodes s) init

/-- The call `strings.ReplaceAll(s, old, new)` for one-character `old` and
`new`. -/
def ReplaceAll (s : String) (old new : Char) : String :=
  ⟨s.data.map fun c => if c = old then new else c⟩

/-- The variables the callback of `BaiduMobileSort` writes to: the lines
logged so far and the captured `list`. -/
structure SortState where
  logs : List String
  list : List Site
  deriving DecidableEq, Repr

/-- BaiduMobileSort (`craw.go`, lines 82-111).  The result holds the returned
`list` together with the lines the call logged. -/
def BaiduMobileSort (q : GoQuery) (gj : GJson) (parse : String → Option URL)
    (qey : q.Selection) (_iplist : List String) : SortState :=
  q.Each (q.Find qey "#results>.c-result")
    (fun id g st =>
      let json := q.AttrOr g "data-log" ""
      let json := ReplaceAll json (Char.ofNat 39) (Char.ofNat 34)
      let logs := if !gj.Valid json then st.logs ++ ["不是有效的json字符串"] else st.logs
      let reallink := gj.GetString json "mu"
      let g := q.Find g ".c-result-content"
      let title := q.Text (q.Find g "h3")
      let uptime := q.Text (q.Find g ".c-line-clamp3>.c-gap-right-small")
      let des := q.Text (q.Last (q.Find g ".c-line-clamp3>span"))
      let showlink := q.Text (q.Find g ".c-line-clamp1>span")
      let isindex := IsIndex parse reallink
      SortState.mk logs (st.list ++ [{
        SortID := id + 1
        Title := title
        Uptime := uptime
        Description := des
        Reallink := reallink
        Isindex := isindex
        Showlink := showlink
        Src := "百度移动" }]))
    (SortState.mk [] [])

/-- SmSort (`craw.go`, lines 194-215). -/
def SmSort (q : GoQuery) (parse : String → Option URL) (qey : q.Selection) : List Site :=
  q.Each (q.Find qey "#results>.sc")
    (fun id g list =>
      let title := q.Text (q.Eq (q.Find g ".c-header-title>span") 0)
      let des := q.Text (q.Eq (q.Find g ".js-c-paragraph-text") 0)
      let showlink := q.Text (q.First (q.Find g ".c-e-source-l>span"))
      let uptime := q.Text (q.Last (q.Find g ".c-e-source-l>span"))
      let reallink := q.AttrOr (q.Eq (q.Find g ".c-header-inner[href]") 0) "href" ""
      let isindex := IsIndex parse reallink
      list ++ [{
        SortID := id
        Title := title
        Uptime := uptime
        Description := des
        Reallink := reallink
        Isindex := isindex
        Showlink := showlink
        Src := "神马移动" }])
    []

/-- The record the callback of `BaiduMobileSort` appends for the container `g`
visited at index `id` (`craw.go`, lines 85-108). -/
def baiduSite (q : GoQuery) (gj : GJson) (parse : String → Option URL) (id : Int)
    (g : q.Selection) : Site :=
  let json := ReplaceAll (q.AttrOr g "data-log" "") (Char.ofNat 39) (Char.ofNat 34)
  let c := q.Find g ".c-result-content"
  { SortID := id + 1
    Title := q.Text (q.Find c "h3")
    Uptime := q.Text (q.Find c ".c-line-clamp3>.c-gap-right-small")
    Description := q.Text (q.Last (q.Find c ".c-line-clamp3>span"))
    Reallink := gj.GetString json "mu"
    Isindex := IsIndex parse (gj.GetString json "mu")
    Showlink := q.Text (q.Find c ".c-line-clamp1>span")
    Src := "百度移动" }

/-- The record the callback of `SmSort` appends for the container `g` visited
at index `id` (`craw.go`, lines 197-212). -/
def smSite (q : GoQuery) (parse : String → Option URL) (id : Int) (g : q.Selection) : Site :=
  let reallink := q.AttrOr (q.Eq (q.Find g ".c-header-inner[href]") 0) "href" ""
  { SortID := id
    Title := q.Text (q.Eq (q.Find g ".c-header-title>span") 0)
    Uptime := q.Text (q.Last (q.Find g ".c-e-source-l>span"))
    Description := q.Text (q.Eq (q.Find g ".js-c-paragraph-text") 0)
    Reallink := reallink
    Isindex := IsIndex parse reallink
    Showlink := q.Text (q.First (q.Find g ".c-e-source-l>span"))
    Src := "神马移动" }

/-! ## A two-result page, for concrete evaluation -/

/-- The selections of a small result page: the document, the set of its two
result containers, each container, the content block of each, a leaf holding
a text, and the empty selection. -/
inductive PageSel where
  | page
  | results
  | card (n : Nat)
  | content (n : Nat)
  | leaf (txt : String)
  | empty
  deriving DecidableEq, Repr

/-- The page behind `PageSel`: two result containers.  The `data-log` of the
first one lacks its closing brace; the second one is complete. -/
def pageQuery : GoQuery where
  Selection := PageSel
  Find := fun s sel =>
    match s with
    | PageSel.page => if sel = "#results>.c-result" then PageSel.results else PageSel.empty
    | PageSel.card n => if sel = ".c-result-content" then PageSel.content n else PageSel.empty
    | PageSel.content n =>
      if sel = "h3" then PageSel.leaf (if n = 0 then "First result" else "Second result")
      else if sel = ".c-line-clamp3>.c-gap-right-small" then PageSel.leaf "1天前"
      else if sel = ".c-line-clamp3>span" then PageSel.leaf "snippet"
      else if sel = ".c-line-clamp1>span" then PageSel.leaf "a.com"
      else PageSel.empty
    | _ => PageSel.empty
  nodes := fun s =>
    match s with
    | PageSel.results => [PageSel.card 0, PageSel.card 1]
    | PageSel.empty => []
    | other => [other]
  Text := fun s =>
    match s with
    | PageSel.leaf txt => txt
    | _ => ""
  AttrOr := fun s name dflt =>
    match s with
    | PageSel.card n =>
      if name = "data-log" then
        (if n = 0 then "\x7b'mu':'https://a.com/x'" else "\x7b'mu':'https://a.com/'\x7d")
      else dflt
    | _ => dflt
  First := fun s => s
  Last := fun s => s
  Eq := fun s i => if i = 0 then s else PageSel.empty

/-- The results of `gjson` on the two `data-log` texts of `pageQuery` (after
quote replacement), as a table: the complete object is valid, the one without
its closing brace is not, and in both `gjson.Get` finds the string stored
under `mu` before it reaches the end of the text.  To be used on these two
texts only. -/
def gjsonTable : GJson where
  Valid := fun json => decide (json = "\x7b\"mu\":\"https://a.com/\"\x7d")
  GetString := fun json path =>
    if path = "mu" then
      (if json = "\x7b\"mu\":\"https://a.com/\"\x7d" then "https://a.com/"
       else if json = "\x7b\"mu\":\"https://a.com/x\"" then "https://a.com/x"
       else "")
    else ""

/-! ## Theorems: link classifier -/

/-- C1: IsIndex follows the four-way rule: the empty link gives the empty-link
value; otherwise a parse failure gives the invalid-link value; otherwise the
homepage value is given exactly when `(query = "" and path = "") or path = "/"`;
otherwise the inner-page value is given.  In particular a parsed URL with an
empty path and a non-empty query is an inner page. -/
theorem IsIndex_four_way (parse : String → Option URL) (link : String) :
    (link = "" → IsIndex parse link = "空链接") ∧
    (link ≠ "" → parse link = none → IsIndex parse link = "无效链接") ∧
    (∀ u, link ≠ "" → parse link = some u →
      ((u.RawQuery = "" ∧ u.Path = "") ∨ u.Path = "/") → IsIndex parse link = "首页") ∧
    (∀ u, link ≠ "" → parse link = some u →
      ¬ ((u.RawQuery = "" ∧ u.Path = "") ∨ u.Path = "/") → IsIndex parse link = "内页") ∧
    (∀ u, link ≠ "" → parse link = some u → u.Path = "" → u.RawQuery ≠ "" →
      IsIndex parse link = "内页") := by
  refine ⟨?_, ?_, ?_, ?_, ?_⟩
  · intro h
    simp [IsIndex, h]
  · intro h hp
    simp [IsIndex, h, hp]
  · intro u h hp hc
    simp only [IsIndex, if_neg h, hp, if_pos hc]
  · intro u h hp hc
    simp only [IsIndex, if_neg h, hp, if_neg hc]
  · intro u h hp hpath hq
    have hc : ¬ ((u.RawQuery = "" ∧ u.Path = "") ∨ u.Path = "/") := by
      rintro (⟨hq0, _⟩ | h1)
      · exact hq hq0
      · rw [hpath] at h1
        exact absurd h1 (by decide)
    simp only [IsIndex, if_neg h, hp, if_neg hc]

/-- Witness of C1 on the link `https://a.com?x=1` (empty path, query `x=1`). -/
theorem IsIndex_four_way_witness :
    IsIndex urlParseTable "https://a.com?x=1" = "内页" :=
  (IsIndex_four_way urlParseTable "https://a.com?x=1").2.2.2.2 ⟨"", "x=1"⟩
    (by decide) (by decide) rfl (by decide)

/-- C2, evaluated on the code: the link `https://a.com/?x=1` parses to path
`/` and query `x=1`; IsIndex classifies it as homepage, although its query is
not empty, while the link `https://a.com?x=1` is an inner page. -/
theorem IsIndex_root_path_ignores_query :
    IsIndex urlParseTable "https://a.com/?x=1" = "首页" ∧
    IsIndex urlParseTable "https://a.com?x=1" = "内页" := by
  constructor <;> decide

/-! ## Theorems: link resolver -/

/-- C3, evaluated on the code: when the GET ends with an error whose first
element is a `*url.Error` exposing the destination `u`, BaiduReallink returns
the empty string (not `u`), for every link and with no proxy list.  The other
two cases are as the claim has them: the empty link returns the empty string
with no step performed, and a GET that ends without error returns the empty
string. -/
theorem BaiduReallink_urlError_gives_empty (rs : RandSource) (http : Http) (op u : String)
    (rest : List GoErr) (link : String) (iplist : List String) (status : Int)
    (body : Bytes) :
    (BaiduReallink rs (fun _ => EndResult.errors (GoErr.urlError op u :: rest))
      link []).out = Outcome.ret "" ∧
    ((BaiduReallink rs http "" iplist).trace = [] ∧
      (BaiduReallink rs http "" iplist).out = Outcome.ret "") ∧
    (BaiduReallink rs (fun _ => EndResult.response status body) link []).out
      = Outcome.ret "" := by
  refine ⟨?_, ⟨?_, ?_⟩, ?_⟩
  · by_cases h : link = ""
    · simp [BaiduReallink, h, Run.pure]
    · simp [BaiduReallink, h, Run.pure, Run.bind, Run.emit]
  · simp [BaiduReallink, Run.pure]
  · simp [BaiduReallink, Run.pure]
  · by_cases h : link = ""
    · simp [BaiduReallink, h, Run.pure]
    · simp [BaiduReallink, h, Run.pure, Run.bind, Run.emit]

/-- C4, evaluated on the code: on the link `http://m.baidu.com/from=844b/x`,
a first error that is not a `*url.Error` makes BaiduReallink panic on the nil
`reallink`, and a proxy list of one element makes it panic inside `rand.Int`,
whatever the network does. -/
theorem BaiduReallink_panics (rs : RandSource) (http : Http) (msg p : String)
    (rest : List GoErr) :
    (BaiduReallink rs (fun _ => EndResult.errors (GoErr.other msg :: rest))
      "http://m.baidu.com/from=844b/x" []).out
      = Outcome.panic "invalid memory address or nil pointer dereference" ∧
    (BaiduReallink rs http "http://m.baidu.com/from=844b/x" [p]).out
      = Outcome.panic "crypto/rand: argument to Int is <= 0" := by
  have hl : ¬ ("http://m.baidu.com/from=844b/x" = "") := by decide
  constructor
  · simp [BaiduReallink, hl, Run.pure, Run.bind, Run.emit, Run.panic]
  · simp [BaiduReallink, hl, RandMemberFromSlice, GetRand, Run.bind, Run.panic]

/-! ## Theorems: random proxy pick -/

/-- C5, evaluated on the code: for a proxy list of exactly one element
RandMemberFromSlice asks `rand.Int` for a number below 0 and panics, and so
does GetQey when it is given that list. -/
theorem RandMemberFromSlice_singleton_panics {Doc : Type} (rs : RandSource) (p : String)
    (http : Http) (lib : DocLib Doc) (link : String) :
    (RandMemberFromSlice rs [p]).out
      = Outcome.panic "crypto/rand: argument to Int is <= 0" ∧
    (GetQey rs http lib link [p]).out
      = Outcome.panic "crypto/rand: argument to Int is <= 0" := by
  constructor
  · simp [RandMemberFromSlice, GetRand, Run.bind, Run.panic]
  · simp [GetQey, RandMemberFromSlice, GetRand, Run.bind, Run.panic]

/-- Whatever RandMemberFromSlice returns lies among the elements of the list
other than the last position: the index is drawn below `len(s) - 1`. -/
theorem RandMemberFromSlice_ret_mem_dropLast (rs : RandSource) (s : List String)
    (x : String) (h : (RandMemberFromSlice rs s).out = Outcome.ret x) :
    x ∈ s.dropLast := by
  unfold RandMemberFromSlice GetRand at h
  by_cases hmax : ((s.length : Int) - 1) ≤ 0
  · simp [hmax, Run.bind, Run.panic] at h
  · have hnat : ((s.length : Int) - 1).toNat = s.length - 1 := by omega
    rw [if_neg hmax, hnat] at h
    cases hd : rs.draw (s.length - 1) with
    | none => simp [hd, Run.bind, Run.fatal] at h
    | some r =>
      have hlt : r < s.length - 1 := rs.draw_lt _ r hd
      have hlen : r < s.length := by omega
      have hneg : ¬ ((r : Int) < 0) := by omega
      have hx : s[r] = x := by
        simpa [hd, Run.bind, Run.pure, sliceIndex, List.getElem?_eq_getElem hlen, hneg]
          using h
      rw [List.dropLast_eq_take, List.mem_iff_getElem]
      refine ⟨r, by simpa using hlt, ?_⟩
      rw [List.getElem_take]
      exact hx

/-- C6, evaluated on the code: on the two-element list `[p0, p1]` every
outcome of the random source makes RandMemberFromSlice return `p0` or stop the
process; the last position is never returned. -/
theorem RandMemberFromSlice_pair_first_only (rs : RandSource) :
    (RandMemberFromSlice rs ["http://p0:8080", "http://p1:8080"]).out
        = Outcome.ret "http://p0:8080" ∨
    (RandMemberFromSlice rs ["http://p0:8080", "http://p1:8080"]).out
        = Outcome.fatal := by
  cases hd : rs.draw 1 with
  | none =>
    right
    simp [RandMemberFromSlice, GetRand, Run.bind, Run.fatal, hd]
  | some r =>
    left
    have hr : r = 0 := by
      have := rs.draw_lt 1 r hd
      omega
    subst hr
    simp [RandMemberFromSlice, GetRand, Run.bind, Run.pure, sliceIndex, hd]

/-! ## Theorems: decoding -/

/-- C10, evaluated on the code: for every body of a response with status 200
(gzip stream or not) GetQey returns the HTML parse of the body itself;
the gzip reader is opened on a source that has already been read to its end. -/
theorem GetQey_parses_raw_body {Doc : Type} (rs : RandSource) (lib : DocLib Doc)
    (body : Bytes) (link : String) :
    (GetQey rs (fun _ => EndResult.response 200 body) lib link []).out
      = Outcome.ret (lib.htmlParse body) := by
  simp [GetQey, NewReader, NewDocumentFromReader, lib.gzip_eof, Run.bind, Run.pure,
    Run.emit]

/-! ## Theorems: ranked-list extractors -/

/-- A callback that appends one record per node turns the loop of `Each` into
an indexed map over the nodes. -/
theorem eachFrom_append {S : Type} (h : Int → S → Site) (gs : List S) (k : Nat)
    (init : List Site) :
    eachFrom (fun id g list => list ++ [h id g]) (k : Int) gs init
      = init ++ (gs.enumFrom k).map (fun p => h (p.1 : Int) p.2) := by
  induction gs generalizing k init with
  | nil => simp [eachFrom]
  | cons g gs ih =>
    have hk : ((k : Int) + 1) = ((k + 1 : Nat) : Int) := by push_cast; rfl
    simp only [eachFrom, List.enumFrom_cons, List.map_cons]
    rw [hk, ih (k + 1) (init ++ [h (k : Int) g])]
    simp

/-- The same for a callback that also updates the logged lines. -/
theorem eachFrom_list {S : Type} (lg : S → List String → List String) (h : Int → S → Site)
    (gs : List S) (k : Nat) (st : SortState) :
    (eachFrom (fun id g st => SortState.mk (lg g st.logs) (st.list ++ [h id g]))
        (k : Int) gs st).list
      = st.list ++ (gs.enumFrom k).map (fun p => h (p.1 : Int) p.2) := by
  induction gs generalizing k st with
  | nil => simp [eachFrom]
  | cons g gs ih =>
    have hk : ((k : Int) + 1) = ((k + 1 : Nat) : Int) := by push_cast; rfl
    simp only [eachFrom, List.enumFrom_cons, List.map_cons]
    rw [hk, ih (k + 1)]
    simp

/-- The list BaiduMobileSort returns, as an indexed map over the containers. -/
theorem BaiduMobileSort_list (q : GoQuery) (gj : GJson) (parse : String → Option URL)
    (qey : q.Selection) (iplist : List String) :
    (BaiduMobileSort q gj parse qey iplist).list
      = (q.nodes (q.Find qey "#results>.c-result")).enum.map
          (fun p => baiduSite q gj parse (p.1 : Int) p.2) := by
  have h := eachFrom_list
    (fun g logs =>
      if !gj.Valid (ReplaceAll (q.AttrOr g "data-log" "") (Char.ofNat 39) (Char.ofNat 34))
      then logs ++ ["不是有效的json字符串"] else logs)
    (baiduSite q gj parse) (q.nodes (q.Find qey "#results>.c-result")) 0
    (SortState.mk [] [])
  simpa [BaiduMobileSort, GoQuery.Each, baiduSite, List.enum] using h

/-- The list SmSort returns, as an indexed map over the containers. -/
theorem SmSort_list (q : GoQuery) (parse : String → Option URL) (qey : q.Selection) :
    SmSort q parse qey
      = (q.nodes (q.Find qey "#results>.sc")).enum.map
          (fun p => smSite q parse (p.1 : Int) p.2) := by
  have h := eachFrom_append (smSite q parse) (q.nodes (q.Find qey "#results>.sc")) 0 []
  simpa [SmSort, GoQuery.Each, smSite, List.enum] using h

/-- The indices of an enumerated list, mapped through `f`. -/
theorem enum_map_index {S α : Type} (f : Nat → α) (l : List S) :
    l.enum.map (fun p => f p.1) = (List.range l.length).map f := by
  rw [← List.enum_map_fst l, List.map_map]
  rfl

/-- Consecutive entries of `0, 1, ..., n-1`, shifted by `c`, differ by one. -/
theorem chain_range_shift (c : Int) (n : Nat) :
    List.Chain' (fun a b : Int => b = a + 1) ((List.range n).map (fun (i : Nat) => (i : Int) + c)) := by
  rw [List.chain'_map]
  cases n with
  | zero => simp
  | succ n =>
    rw [List.chain'_range_succ]
    intro m _
    push_cast
    ring

/-- A container with invalid JSON leaves the warning among the logged lines. -/
theorem eachFrom_logs_mem {S : Type} (bad : S → Bool) (msg : String) (h : Int → S → Site)
    (gs : List S) (g : S) (hg : g ∈ gs) (hb : bad g = true) (k : Int) (st : SortState) :
    msg ∈ (eachFrom (fun id g st =>
        SortState.mk (if bad g then st.logs ++ [msg] else st.logs) (st.list ++ [h id g]))
      k gs st).logs := by
  have mono : ∀ (gs : List S) (k : Int) (st : SortState), msg ∈ st.logs →
      msg ∈ (eachFrom (fun id g st =>
        SortState.mk (if bad g then st.logs ++ [msg] else st.logs) (st.list ++ [h id g]))
      k gs st).logs := by
    intro gs
    induction gs with
    | nil => intro k st hm; simpa [eachFrom] using hm
    | cons a gs ih =>
      intro k st hm
      simp only [eachFrom]
      apply ih
      by_cases ha : bad a = true <;> simp [ha, hm]
  induction gs generalizing k st with
  | nil => cases hg
  | cons a gs ih =>
    simp only [eachFrom]
    rcases List.mem_cons.mp hg with rfl | hin
    · apply mono
      simp [hb]
    · exact ih hin _ _

/-- C7: BaiduMobileSort and SmSort return one record per matched container,
the i-th record being the one built from the i-th container in page order, and
in every returned record Isindex is IsIndex applied to the Reallink of that
same record. -/
theorem sort_records_consistent (q : GoQuery) (gj : GJson) (parse : String → Option URL)
    (qey : q.Selection) (iplist : List String) :
    ((BaiduMobileSort q gj parse qey iplist).list.length
        = (q.nodes (q.Find qey "#results>.c-result")).length ∧
      (BaiduMobileSort q gj parse qey iplist).list
        = (q.nodes (q.Find qey "#results>.c-result")).enum.map
            (fun p => baiduSite q gj parse (p.1 : Int) p.2) ∧
      (BaiduMobileSort q gj parse qey iplist).list.map Site.Isindex
        = (BaiduMobileSort q gj parse qey iplist).list.map
            (fun r => IsIndex parse r.Reallink)) ∧
    ((SmSort q parse qey).length = (q.nodes (q.Find qey "#results>.sc")).length ∧
      SmSort q parse qey
        = (q.nodes (q.Find qey "#results>.sc")).enum.map
            (fun p => smSite q parse (p.1 : Int) p.2) ∧
      (SmSort q parse qey).map Site.Isindex
        = (SmSort q parse qey).map (fun r => IsIndex parse r.Reallink)) := by
  refine ⟨⟨?_, BaiduMobileSort_list q gj parse qey iplist, ?_⟩,
    ⟨?_, SmSort_list q parse qey, ?_⟩⟩
  · simp [BaiduMobileSort_list]
  · rw [BaiduMobileSort_list]
    simp [List.map_map, Function.comp_def, baiduSite]
  · simp [SmSort_list]
  · rw [SmSort_list]
    simp [List.map_map, Function.comp_def, smSite]

/-- C8: the record BaiduMobileSort builds from the container at 0-based
position i has SortID i + 1, the record SmSort builds from it has SortID i;
in both lists every rank is the previous one plus one (strictly increasing,
no gaps). -/
theorem sort_ranks (q : GoQuery) (gj : GJson) (parse : String → Option URL)
    (qey : q.Selection) (iplist : List String) :
    (BaiduMobileSort q gj parse qey iplist).list.map Site.SortID
      = (List.range (q.nodes (q.Find qey "#results>.c-result")).length).map
          (fun (i : Nat) => (i : Int) + 1) ∧
    (SmSort q parse qey).map Site.SortID
      = (List.range (q.nodes (q.Find qey "#results>.sc")).length).map
          (fun (i : Nat) => (i : Int)) ∧
    List.Chain' (fun a b : Int => b = a + 1)
      ((BaiduMobileSort q gj parse qey iplist).list.map Site.SortID) ∧
    List.Chain' (fun a b : Int => b = a + 1) ((SmSort q parse qey).map Site.SortID) := by
  have hb : (BaiduMobileSort q gj parse qey iplist).list.map Site.SortID
      = (List.range (q.nodes (q.Find qey "#results>.c-result")).length).map
          (fun (i : Nat) => (i : Int) + 1) := by
    rw [BaiduMobileSort_list, List.map_map,
      ← enum_map_index (fun (i : Nat) => (i : Int) + 1)]
    rfl
  have hs : (SmSort q parse qey).map Site.SortID
      = (List.range (q.nodes (q.Find qey "#results>.sc")).length).map
          (fun (i : Nat) => (i : Int) + 0) := by
    rw [SmSort_list, List.map_map, ← enum_map_index (fun (i : Nat) => (i : Int) + 0)]
    simp [Function.comp_def, smSite]
  refine ⟨hb, by simpa using hs, ?_, ?_⟩
  · rw [hb]
    exact chain_range_shift 1 _
  · rw [hs]
    exact chain_range_shift 0 _

/-- C9 (amended): for a container at position i whose `data-log`, after quote
replacement, is not valid JSON, BaiduMobileSort logs the warning and still
emits that container's record at position i: rank i + 1, Reallink equal to
whatever `gjson.Get` reads under `mu` in that text, Isindex equal to IsIndex of
that Reallink, and title, recency, description and display link extracted as
usual; the list still holds one record per container, and the record at every
position j, the later ones included, is the one built as usual from the j-th
container. -/
theorem BaiduMobileSort_invalid_json (q : GoQuery) (gj : GJson)
    (parse : String → Option URL) (qey : q.Selection) (iplist : List String)
    (i : Nat) (g : q.Selection)
    (hg : (q.nodes (q.Find qey "#results>.c-result"))[i]? = some g)
    (hv : gj.Valid (ReplaceAll (q.AttrOr g "data-log" "") (Char.ofNat 39) (Char.ofNat 34))
      = false) :
    "不是有效的json字符串" ∈ (BaiduMobileSort q gj parse qey iplist).logs ∧
    (BaiduMobileSort q gj parse qey iplist).list[i]? = some {
      SortID := (i : Int) + 1
      Title := q.Text (q.Find (q.Find g ".c-result-content") "h3")
      Uptime := q.Text (q.Find (q.Find g ".c-result-content")
        ".c-line-clamp3>.c-gap-right-small")
      Description := q.Text (q.Last (q.Find (q.Find g ".c-result-content")
        ".c-line-clamp3>span"))
      Reallink := gj.GetString
        (ReplaceAll (q.AttrOr g "data-log" "") (Char.ofNat 39) (Char.ofNat 34)) "mu"
      Isindex := IsIndex parse (gj.GetString
        (ReplaceAll (q.AttrOr g "data-log" "") (Char.ofNat 39) (Char.ofNat 34)) "mu")
      Showlink := q.Text (q.Find (q.Find g ".c-result-content") ".c-line-clamp1>span")
      Src := "百度移动" } ∧
    (BaiduMobileSort q gj parse qey iplist).list.length
      = (q.nodes (q.Find qey "#results>.c-result")).length ∧
    (∀ (j : Nat) (g' : q.Selection),
      (q.nodes (q.Find qey "#results>.c-result"))[j]? = some g' →
      (BaiduMobileSort q gj parse qey iplist).list[j]?
        = some (baiduSite q gj parse (j : Int) g')) := by
  refine ⟨?_, ?_, ?_, ?_⟩
  · have hmem : g ∈ q.nodes (q.Find qey "#results>.c-result") :=
      List.getElem?_mem hg
    have h := eachFrom_logs_mem
      (fun g => !gj.Valid
        (ReplaceAll (q.AttrOr g "data-log" "") (Char.ofNat 39) (Char.ofNat 34)))
      "不是有效的json字符串" (baiduSite q gj parse)
      (q.nodes (q.Find qey "#results>.c-result")) g hmem (by simp [hv]) 0
      (SortState.mk [] [])
    simpa [BaiduMobileSort, GoQuery.Each, baiduSite] using h
  · rw [BaiduMobileSort_list]
    simp [List.getElem?_map, List.getElem?_enum, hg, baiduSite]
  · simp [BaiduMobileSort_list]
  · intro j g' hj
    rw [BaiduMobileSort_list]
    simp [List.getElem?_map, List.getElem?_enum, hj]

/-- Witness of C9 (amended) on the two-result page: its first container has a
`data-log` without closing brace, and the record of the second container is
emitted in full after it. -/
theorem BaiduMobileSort_invalid_json_witness :
    "不是有效的json字符串"
      ∈ (BaiduMobileSort pageQuery gjsonTable urlParseTable PageSel.page []).logs ∧
    (BaiduMobileSort pageQuery gjsonTable urlParseTable PageSel.page []).list[0]? = some {
      SortID := 1
      Title := "First result"
      Uptime := "1天前"
      Description := "snippet"
      Reallink := "https://a.com/x"
      Isindex := "内页"
      Showlink := "a.com"
      Src := "百度移动" } ∧
    (BaiduMobileSort pageQuery gjsonTable urlParseTable PageSel.page []).list.length = 2 ∧
    (BaiduMobileSort pageQuery gjsonTable urlParseTable PageSel.page []).list[1]? = some {
      SortID := 2
      Title := "Second result"
      Uptime := "1天前"
      Description := "snippet"
      Reallink := "https://a.com/"
      Isindex := "首页"
      Showlink := "a.com"
      Src := "百度移动" } :=
  have h := BaiduMobileSort_invalid_json pageQuery gjsonTable urlParseTable PageSel.page [] 0
    (PageSel.card 0) rfl (by decide)
  ⟨h.1, h.2.1, h.2.2.1, (h.2.2.2 1 (PageSel.card 1) rfl).trans (by decide)⟩

/-- C9 as stated fails: on the two-result page the first container's
`data-log` is not valid JSON after quote replacement, yet its record carries
the link `https://a.com/x` and the inner-page value. -/
theorem BaiduMobileSort_invalid_json_link_not_empty :
    ¬ (∀ (q : GoQuery) (gj : GJson) (parse : String → Option URL) (qey : q.Selection)
        (iplist : List String) (i : Nat) (g : q.Selection),
        (q.nodes (q.Find qey "#results>.c-result"))[i]? = some g →
        gj.Valid (ReplaceAll (q.AttrOr g "data-log" "") (Char.ofNat 39) (Char.ofNat 34))
          = false →
        ∃ r, (BaiduMobileSort q gj parse qey iplist).list[i]? = some r ∧
          r.Reallink = "" ∧ r.Isindex = "空链接" ∧
          r.Title = q.Text (q.Find (q.Find g ".c-result-content") "h3") ∧
          r.Uptime = q.Text (q.Find (q.Find g ".c-result-content")
            ".c-line-clamp3>.c-gap-right-small") ∧
          r.Description = q.Text (q.Last (q.Find (q.Find g ".c-result-content")
            ".c-line-clamp3>span")) ∧
          r.Showlink = q.Text (q.Find (q.Find g ".c-result-content")
            ".c-line-clamp1>span") ∧
          (BaiduMobileSort q gj parse qey iplist).list.length
            = (q.nodes (q.Find qey "#results>.c-result")).length) := by
  intro hall
  obtain ⟨r, hr, hlink, _⟩ :=
    hall pageQuery gjsonTable urlParseTable PageSel.page [] 0 (PageSel.card 0)
      rfl (by decide)
  have h0 : (BaiduMobileSort pageQuery gjsonTable urlParseTable PageSel.page []).list[0]?
      = some {
        SortID := 1
        Title := "First result"
        Uptime := "1天前"
        Description := "snippet"
        Reallink := "https://a.com/x"
        Isindex := "内页"
        Showlink := "a.com"
        Src := "百度移动" } := by decide
  rw [h0] at hr
  cases hr
  exact absurd hlink (by decide)

end Craw
